import Mathlib

/-!
# Verification of `seek_localize.coordsystem`

A shallow embedding of `src/seek_localize/coordsystem.py` (functions
`convert_coord_space`, `convert_coord_units`, `_handle_tkras_trans`,
`_handle_mni_trans`) together with the numpy / nibabel primitives they rely
on.  Machine floating point is modelled by exact rational arithmetic `ℚ`;
fallible Python code (raised exceptions) is modelled with `Except`.

Components of the repository that are not under `src/` (the `Sensors`
record, `MAPPING_COORD_FRAMES`, `_scale_coordinates`, and the MNE helpers
`_read_mri_info`, `read_talxfm`, `get_entities_from_fname`) are modelled
from the spec; each such definition carries a doc comment starting with
`Modelled from the spec:`.
-/

/-- A 4x4 matrix of rationals, with one explicit field per entry, modelling a
numpy `(4, 4)` float array (an affine transform in homogeneous coordinates). -/
structure Mat4 where
  m00 : ℚ
  m01 : ℚ
  m02 : ℚ
  m03 : ℚ
  m10 : ℚ
  m11 : ℚ
  m12 : ℚ
  m13 : ℚ
  m20 : ℚ
  m21 : ℚ
  m22 : ℚ
  m23 : ℚ
  m30 : ℚ
  m31 : ℚ
  m32 : ℚ
  m33 : ℚ
deriving DecidableEq, Repr

/-- A 3-d point with rational coordinates (one row of the electrode
coordinate array). -/
abbrev Point3 := ℚ × ℚ × ℚ

/-- Determinant of a 3x3 matrix given by its nine entries (row major). -/
def det3 (a00 a01 a02 a10 a11 a12 a20 a21 a22 : ℚ) : ℚ :=
  a00 * (a11 * a22 - a12 * a21)
    - a01 * (a10 * a22 - a12 * a20)
    + a02 * (a10 * a21 - a11 * a20)

/-- Determinant of a `Mat4`, by cofactor expansion along the first row. -/
def det4 (A : Mat4) : ℚ :=
  A.m00 * det3 A.m11 A.m12 A.m13 A.m21 A.m22 A.m23 A.m31 A.m32 A.m33
    - A.m01 * det3 A.m10 A.m12 A.m13 A.m20 A.m22 A.m23 A.m30 A.m32 A.m33
    + A.m02 * det3 A.m10 A.m11 A.m13 A.m20 A.m21 A.m23 A.m30 A.m31 A.m33
    - A.m03 * det3 A.m10 A.m11 A.m12 A.m20 A.m21 A.m22 A.m30 A.m31 A.m32

/-- The matrix inverse of a `Mat4` (adjugate over determinant, the exact
value computed by `np.linalg.inv` on an invertible matrix).  Each entry
`(i, j)` is the cofactor `(-1)^(i+j)` times the minor obtained by deleting
row `j` and column `i`, divided by the determinant. -/
def inv4 (A : Mat4) : Mat4 :=
  let d := det4 A
  { m00 := det3 A.m11 A.m12 A.m13 A.m21 A.m22 A.m23 A.m31 A.m32 A.m33 / d
    m01 := -det3 A.m01 A.m02 A.m03 A.m21 A.m22 A.m23 A.m31 A.m32 A.m33 / d
    m02 := det3 A.m01 A.m02 A.m03 A.m11 A.m12 A.m13 A.m31 A.m32 A.m33 / d
    m03 := -det3 A.m01 A.m02 A.m03 A.m11 A.m12 A.m13 A.m21 A.m22 A.m23 / d
    m10 := -det3 A.m10 A.m12 A.m13 A.m20 A.m22 A.m23 A.m30 A.m32 A.m33 / d
    m11 := det3 A.m00 A.m02 A.m03 A.m20 A.m22 A.m23 A.m30 A.m32 A.m33 / d
    m12 := -det3 A.m00 A.m02 A.m03 A.m10 A.m12 A.m13 A.m30 A.m32 A.m33 / d
    m13 := det3 A.m00 A.m02 A.m03 A.m10 A.m12 A.m13 A.m20 A.m22 A.m23 / d
    m20 := det3 A.m10 A.m11 A.m13 A.m20 A.m21 A.m23 A.m30 A.m31 A.m33 / d
    m21 := -det3 A.m00 A.m01 A.m03 A.m20 A.m21 A.m23 A.m30 A.m31 A.m33 / d
    m22 := det3 A.m00 A.m01 A.m03 A.m10 A.m11 A.m13 A.m30 A.m31 A.m33 / d
    m23 := -det3 A.m00 A.m01 A.m03 A.m10 A.m11 A.m13 A.m20 A.m21 A.m23 / d
    m30 := -det3 A.m10 A.m11 A.m12 A.m20 A.m21 A.m22 A.m30 A.m31 A.m32 / d
    m31 := det3 A.m00 A.m01 A.m02 A.m20 A.m21 A.m22 A.m30 A.m31 A.m32 / d
    m32 := -det3 A.m00 A.m01 A.m02 A.m10 A.m11 A.m12 A.m30 A.m31 A.m32 / d
    m33 := det3 A.m00 A.m01 A.m02 A.m10 A.m11 A.m12 A.m20 A.m21 A.m22 / d }

/-- `nibabel.affines.apply_affine` on a single point: it multiplies by the
top-left 3x3 block and adds the top three entries of the last column (the
bottom row of the homogeneous matrix is not consulted). -/
def applyAffine (A : Mat4) (p : Point3) : Point3 :=
  (A.m00 * p.1 + A.m01 * p.2.1 + A.m02 * p.2.2 + A.m03,
   A.m10 * p.1 + A.m11 * p.2.1 + A.m12 * p.2.2 + A.m13,
   A.m20 * p.1 + A.m21 * p.2.1 + A.m22 * p.2.2 + A.m23)

/-- A homogeneous affine matrix: bottom row `(0, 0, 0, 1)`.  All affines in
the spec data model ("AffineTransform ... homogeneous coordinates") have
this shape. -/
def IsAffineMat (A : Mat4) : Prop :=
  A.m30 = 0 ∧ A.m31 = 0 ∧ A.m32 = 0 ∧ A.m33 = 1

instance (A : Mat4) : Decidable (IsAffineMat A) := by
  unfold IsAffineMat; infer_instance

/-- Matrix product of two `Mat4`s, entry by entry. -/
def mat4Mul (A B : Mat4) : Mat4 where
  m00 := A.m00 * B.m00 + A.m01 * B.m10 + A.m02 * B.m20 + A.m03 * B.m30
  m01 := A.m00 * B.m01 + A.m01 * B.m11 + A.m02 * B.m21 + A.m03 * B.m31
  m02 := A.m00 * B.m02 + A.m01 * B.m12 + A.m02 * B.m22 + A.m03 * B.m32
  m03 := A.m00 * B.m03 + A.m01 * B.m13 + A.m02 * B.m23 + A.m03 * B.m33
  m10 := A.m10 * B.m00 + A.m11 * B.m10 + A.m12 * B.m20 + A.m13 * B.m30
  m11 := A.m10 * B.m01 + A.m11 * B.m11 + A.m12 * B.m21 + A.m13 * B.m31
  m12 := A.m10 * B.m02 + A.m11 * B.m12 + A.m12 * B.m22 + A.m13 * B.m32
  m13 := A.m10 * B.m03 + A.m11 * B.m13 + A.m12 * B.m23 + A.m13 * B.m33
  m20 := A.m20 * B.m00 + A.m21 * B.m10 + A.m22 * B.m20 + A.m23 * B.m30
  m21 := A.m20 * B.m01 + A.m21 * B.m11 + A.m22 * B.m21 + A.m23 * B.m31
  m22 := A.m20 * B.m02 + A.m21 * B.m12 + A.m22 * B.m22 + A.m23 * B.m32
  m23 := A.m20 * B.m03 + A.m21 * B.m13 + A.m22 * B.m23 + A.m23 * B.m33
  m30 := A.m30 * B.m00 + A.m31 * B.m10 + A.m32 * B.m20 + A.m33 * B.m30
  m31 := A.m30 * B.m01 + A.m31 * B.m11 + A.m32 * B.m21 + A.m33 * B.m31
  m32 := A.m30 * B.m02 + A.m31 * B.m12 + A.m32 * B.m22 + A.m33 * B.m32
  m33 := A.m30 * B.m03 + A.m31 * B.m13 + A.m32 * B.m23 + A.m33 * B.m33

/-- The 4x4 identity matrix. -/
def idMat4 : Mat4 :=
  ⟨1, 0, 0, 0, 0, 1, 0, 0, 0, 0, 1, 0, 0, 0, 0, 1⟩

/-- Combining four summands with a common denominator on the right of each
product: reduces a quotient identity to a polynomial identity. -/
theorem div_linear_comb (a0 a1 a2 a3 x0 x1 x2 x3 d r : ℚ) (hd : d ≠ 0)
    (h : a0 * x0 + a1 * x1 + a2 * x2 + a3 * x3 = r * d) :
    a0 * (x0 / d) + a1 * (x1 / d) + a2 * (x2 / d) + a3 * (x3 / d) = r :=
  calc a0 * (x0 / d) + a1 * (x1 / d) + a2 * (x2 / d) + a3 * (x3 / d)
      = (a0 * x0 + a1 * x1 + a2 * x2 + a3 * x3) / d := by ring
    _ = r * d / d := by rw [h]
    _ = r := mul_div_cancel_right₀ r hd

/-- Combining four summands with a common denominator on the left of each
product: reduces a quotient identity to a polynomial identity. -/
theorem div_linear_comb' (a0 a1 a2 a3 x0 x1 x2 x3 d r : ℚ) (hd : d ≠ 0)
    (h : x0 * a0 + x1 * a1 + x2 * a2 + x3 * a3 = r * d) :
    x0 / d * a0 + x1 / d * a1 + x2 / d * a2 + x3 / d * a3 = r :=
  calc x0 / d * a0 + x1 / d * a1 + x2 / d * a2 + x3 / d * a3
      = (x0 * a0 + x1 * a1 + x2 * a2 + x3 * a3) / d := by ring
    _ = r * d / d := by rw [h]
    _ = r := mul_div_cancel_right₀ r hd

/-- Laplace expansion identity: a matrix times its `inv4` is the identity. -/
theorem mat4Mul_inv4 (A : Mat4) (hd : det4 A ≠ 0) :
    mat4Mul A (inv4 A) = idMat4 := by
  simp only [mat4Mul, inv4, idMat4, Mat4.mk.injEq]
  refine ⟨?_, ?_, ?_, ?_, ?_, ?_, ?_, ?_, ?_, ?_, ?_, ?_, ?_, ?_, ?_, ?_⟩ <;>
    · refine div_linear_comb _ _ _ _ _ _ _ _ _ _ hd ?_
      simp only [det4, det3]
      ring

/-- Laplace expansion identity: `inv4` of a matrix times the matrix is the
identity. -/
theorem inv4_mat4Mul (A : Mat4) (hd : det4 A ≠ 0) :
    mat4Mul (inv4 A) A = idMat4 := by
  simp only [mat4Mul, inv4, idMat4, Mat4.mk.injEq]
  refine ⟨?_, ?_, ?_, ?_, ?_, ?_, ?_, ?_, ?_, ?_, ?_, ?_, ?_, ?_, ?_, ?_⟩ <;>
    · refine div_linear_comb' _ _ _ _ _ _ _ _ _ _ hd ?_
      simp only [det4, det3]
      ring

/-- `applyAffine` turns matrix product into composition, as long as the
inner matrix has homogeneous bottom row (its bottom row is the only part
`applyAffine` discards). -/
theorem applyAffine_mat4Mul (A B : Mat4) (hb : IsAffineMat B) (p : Point3) :
    applyAffine (mat4Mul A B) p = applyAffine A (applyAffine B p) := by
  obtain ⟨h30, h31, h32, h33⟩ := hb
  obtain ⟨x, y, z⟩ := p
  simp only [applyAffine, mat4Mul, h30, h31, h32, h33, Prod.mk.injEq]
  refine ⟨by ring, by ring, by ring⟩

/-- The identity matrix acts as the identity on points. -/
theorem applyAffine_idMat4 (p : Point3) : applyAffine idMat4 p = p := by
  obtain ⟨x, y, z⟩ := p
  simp [applyAffine, idMat4]

/-- Under the bottom row `(0, 0, 0, 1)`, `det4` is the determinant of the
top-left 3x3 block. -/
theorem det4_of_affine (A : Mat4) (ha : IsAffineMat A) :
    det4 A = det3 A.m00 A.m01 A.m02 A.m10 A.m11 A.m12 A.m20 A.m21 A.m22 := by
  obtain ⟨h30, h31, h32, h33⟩ := ha
  simp only [det4, det3, h30, h31, h32, h33]
  ring

/-- The `inv4` of an invertible homogeneous affine matrix is again a
homogeneous affine matrix. -/
theorem isAffineMat_inv4 (A : Mat4) (hd : det4 A ≠ 0) (ha : IsAffineMat A) :
    IsAffineMat (inv4 A) := by
  obtain ⟨h30, h31, h32, h33⟩ := ha
  have hdet := det4_of_affine A ⟨h30, h31, h32, h33⟩
  have z1 : det3 A.m10 A.m11 A.m12 A.m20 A.m21 A.m22 A.m30 A.m31 A.m32 = 0 := by
    simp only [det3, h30, h31, h32]; ring
  have z2 : det3 A.m00 A.m01 A.m02 A.m20 A.m21 A.m22 A.m30 A.m31 A.m32 = 0 := by
    simp only [det3, h30, h31, h32]; ring
  have z3 : det3 A.m00 A.m01 A.m02 A.m10 A.m11 A.m12 A.m30 A.m31 A.m32 = 0 := by
    simp only [det3, h30, h31, h32]; ring
  refine ⟨?_, ?_, ?_, ?_⟩
  · simp [inv4, z1]
  · simp [inv4, z2]
  · simp [inv4, z3]
  · simp only [inv4]
    rw [← hdet, div_self hd]

/-- Applying the inverse after the forward affine recovers the point:
`inv4 A` undoes `applyAffine A` for an invertible homogeneous affine. -/
theorem applyAffine_inv4_applyAffine (A : Mat4) (hd : det4 A ≠ 0)
    (ha : IsAffineMat A) (p : Point3) :
    applyAffine (inv4 A) (applyAffine A p) = p := by
  rw [← applyAffine_mat4Mul (inv4 A) A ha, inv4_mat4Mul A hd,
    applyAffine_idMat4]

/-- Applying the forward affine after the inverse recovers the point:
`applyAffine A` undoes `inv4 A` for an invertible homogeneous affine. -/
theorem applyAffine_applyAffine_inv4 (A : Mat4) (hd : det4 A ≠ 0)
    (ha : IsAffineMat A) (p : Point3) :
    applyAffine A (applyAffine (inv4 A) p) = p := by
  rw [← applyAffine_mat4Mul A (inv4 A) (isAffineMat_inv4 A hd ha),
    mat4Mul_inv4 A hd, applyAffine_idMat4]

/-! ## numpy primitives used by `coordsystem.py` -/

/-- `np.round` on a single value: round half to even (the IEEE default used
by numpy), returning the integer. -/
def npRound (q : ℚ) : ℤ :=
  let n := ⌊q⌋
  let f := q - n
  if f < 1 / 2 then n
  else if 1 / 2 < f then n + 1
  else if Even n then n else n + 1

/-- `np.round(...).astype(int)` applied to one point: every coordinate is
rounded half-to-even; the subsequent integer cast leaves the already
integral values unchanged. -/
def roundPoint (p : Point3) : Point3 :=
  ((npRound p.1 : ℚ), (npRound p.2.1 : ℚ), (npRound p.2.2 : ℚ))

/-- A point whose three coordinates are integers (the image of an
`astype(int)` array). -/
def IsIntegralPoint (p : Point3) : Prop :=
  (∃ a : ℤ, p.1 = (a : ℚ)) ∧ (∃ b : ℤ, p.2.1 = (b : ℚ)) ∧ ∃ c : ℤ, p.2.2 = (c : ℚ)

/-- `np.isclose` on two scalars with the numpy default tolerances
`rtol = 1e-5`, `atol = 1e-8`: `|a - b| <= atol + rtol * |b|`. -/
def npIsCloseQ (a b : ℚ) : Bool :=
  decide (|a - b| ≤ 1 / 100000000 + 1 / 100000 * |b|)

/-- `np.isclose` on two 4x4 arrays: the elementwise boolean result,
flattened; a 16 element numpy boolean array. -/
def npIsCloseMat (A B : Mat4) : List Bool :=
  [npIsCloseQ A.m00 B.m00, npIsCloseQ A.m01 B.m01,
   npIsCloseQ A.m02 B.m02, npIsCloseQ A.m03 B.m03,
   npIsCloseQ A.m10 B.m10, npIsCloseQ A.m11 B.m11,
   npIsCloseQ A.m12 B.m12, npIsCloseQ A.m13 B.m13,
   npIsCloseQ A.m20 B.m20, npIsCloseQ A.m21 B.m21,
   npIsCloseQ A.m22 B.m22, npIsCloseQ A.m23 B.m23,
   npIsCloseQ A.m30 B.m30, npIsCloseQ A.m31 B.m31,
   npIsCloseQ A.m32 B.m32, npIsCloseQ A.m33 B.m33]

/-- The Python exceptions that the embedded code can raise, one constructor
per distinct raise site / library failure. -/
inductive ConvError where
  /-- `ValueError` raised for a target unit or frame that is not accepted
  (the `to_coord not in ...` guards). -/
  | invalidArgument : ConvError
  /-- `ValueError` raised by `convert_coord_space` when the sensor record
  carries an unrecognized coordinate frame. -/
  | invalidSensorFrame : ConvError
  /-- `RuntimeError` "Need IntendedFor Image filepath" raised by
  `convert_coord_space` when `sensors.intended_for` is `None`. -/
  | missingReferenceImage : ConvError
  /-- `RuntimeError` raised by `_handle_mni_trans` when no subject entity
  can be parsed from the image file path. -/
  | unresolvableSubject : ConvError
  /-- `TypeError` raised by `os.path.join` when `subjects_dir` is `None`. -/
  | typeError : ConvError
  /-- `IOError` "mri not found" raised by `_handle_mni_trans` when neither
  `orig.mgz` nor `T1.mgz` exists for the subject. -/
  | mriNotFound : ConvError
  /-- `RuntimeError` "this does not correspond to the original T1.mgz file"
  raised by `_handle_mni_trans` when the consistency check reports a
  mismatch. -/
  | frameMismatch : ConvError
  /-- `ValueError` "The truth value of an array with more than one element
  is ambiguous" raised by `bool(...)` on a numpy array of more than one
  element (here: by `not np.isclose(a, b)` on 4x4 inputs). -/
  | ambiguousTruthValue : ConvError
  /-- `numpy.linalg.LinAlgError` raised by `np.linalg.inv` on a singular
  matrix. -/
  | linAlgError : ConvError
  /-- `TypeError` raised inside `nibabel.load` when the path is `None`. -/
  | loadNonePath : ConvError
  /-- `FileNotFoundError` raised by `nibabel.load` on a missing file. -/
  | loadMissingFile : ConvError
deriving DecidableEq, Repr

/-- Python truthiness of a numpy boolean array, as evaluated by `not`:
only a one element array has a truth value; any other size raises
`ValueError` ("The truth value of an array with more than one element is
ambiguous").  The 4x4 `np.isclose` result has 16 elements and therefore
always raises. -/
def ndarrayTruth (a : List Bool) : Except ConvError Bool :=
  match a with
  | [b] => .ok b
  | _ => .error .ambiguousTruthValue

/-- `np.linalg.inv`: raises `LinAlgError` on a singular matrix, otherwise
returns the exact inverse. -/
def npLinalgInv (A : Mat4) : Except ConvError Mat4 :=
  if det4 A = 0 then .error .linAlgError else .ok (inv4 A)

/-! ## Data model -/

/-- A loaded nibabel image, as consumed by `coordsystem.py`: its intrinsic
voxel-to-physical affine (`img.affine`) and, when the header format
supports the lookup, the `header.get_vox2ras_tkr()` matrix (`none` models
the `AttributeError` branch). -/
structure NbImage where
  affine : Mat4
  vox2ras_tkr : Option Mat4
deriving DecidableEq, Repr

/-- Modelled from the spec: the `Sensors` record (the PointSet of the spec)
is produced by the external reader and is not under `src/`.  Per the spec
it is an ordered sequence of points together with a coordinate tag
(`coord_unit`), the reference image path (`intended_for`), and auxiliary
per-point attributes (here the sensor names) that conversions must leave
untouched.  The Python idiom `Sensors(**sensors.__dict__)` followed by
`set_coords` and a `coord_unit` assignment is modelled as a structure
update of `coords` and `coord_unit`. -/
structure Sensors where
  coords : List Point3
  coord_unit : String
  intended_for : Option String
  names : List String
deriving DecidableEq, Repr

/-- The read-only filesystem surroundings of one conversion call.
`images` models the volumes `nibabel.load` can reach.  The remaining
fields are modelled from the spec (they stand for MNE helpers that are not
under `src/`): `subjectOf` is `get_entities_from_fname(...)["subject"]`;
`hasOrig sd subj` / `hasT1 sd subj` are the existence checks for
`<sd>/<subj>/mri/orig.mgz` and `T1.mgz`; `mriRasT sd subj` is the subject
canonical voxel-to-physical affine read by `_read_mri_info`; and
`mriMniT sd subj` is the voxel-to-MNI transform read by `read_talxfm`. -/
structure Env where
  images : String → Option NbImage
  subjectOf : String → Option String
  hasOrig : String → String → Bool
  hasT1 : String → String → Bool
  mriRasT : String → String → Mat4
  mriMniT : String → String → Mat4

/-- `nibabel.load` on an optional path: `None` raises a `TypeError` inside
the loader, a missing file raises `FileNotFoundError`, otherwise the image
is returned. -/
def nbLoad (env : Env) (fpath : Option String) : Except ConvError NbImage :=
  match fpath with
  | none => .error .loadNonePath
  | some p =>
    match env.images p with
    | none => .error .loadMissingFile
    | some img => .ok img

/-- Modelled from the spec: `MAPPING_COORD_FRAMES` lives in
`seek_localize.config`, which is not under `src/`; the docstring of
`convert_coord_space` fixes its value: "Must be one of
['mri', 'tkras', 'mni']". -/
def MAPPING_COORD_FRAMES : List String := ["mri", "tkras", "mni"]

/-- Modelled from the spec: `_scale_coordinates` lives in
`seek_localize.utils`, which is not under `src/`; the spec describes it as
"a pure linear scale-factor step independent of the affine" that rescales
coordinates carrying a physical unit (e.g. centimeters) into the target
physical unit; a tag without a physical scale (such as the voxel tag) is
left at scale factor one. -/
def unitScaleToMm (u : String) : ℚ :=
  if u = "mm" then 1 else if u = "cm" then 10 else if u = "m" then 1000 else 1

/-- One point multiplied by a scalar factor, coordinatewise. -/
def scalePoint (factor : ℚ) (p : Point3) : Point3 :=
  (factor * p.1, factor * p.2.1, factor * p.2.2)

/-- Modelled from the spec: the point set rescaled by the ratio of the two
unit scale factors (see `unitScaleToMm`). -/
def scaleCoordinates (coords : List Point3) (fromUnit toUnit : String) :
    List Point3 :=
  coords.map (scalePoint (unitScaleToMm fromUnit / unitScaleToMm toUnit))

/-! ## The transform resolvers (`_handle_tkras_trans`, `_handle_mni_trans`) -/

/-- The hardcoded fallback voxel-to-tkras matrix of `_handle_tkras_trans`
(valid for the 256-cubed 1mm FreeSurfer conformed volume). -/
def fallback_vox2ras_tkr : Mat4 :=
  ⟨-1, 0, 0, 128,
    0, 0, 1, -128,
    0, -1, 0, 128,
    0, 0, 0, 1⟩

/-- `_handle_tkras_trans`: resolves the voxel-to-tkras affine from the
image header, falling back (with a non-fatal warning, recorded as the
`Bool` of the result) to `fallback_vox2ras_tkr` when the header does not
support `get_vox2ras_tkr`; applies the affine (or, for `revert_tkras`, its
`np.linalg.inv` inverse) to every point. -/
def handle_tkras_trans (elec_coords : List Point3) (img : NbImage)
    (revert_tkras : Bool) : Except ConvError (Bool × List Point3) :=
  let resolved :=
    match img.vox2ras_tkr with
    | some m => (false, m)
    | none => (true, fallback_vox2ras_tkr)
  match (if revert_tkras then npLinalgInv resolved.2 else .ok resolved.2) with
  | .error e => .error e
  | .ok affine => .ok (resolved.1, elec_coords.map (applyAffine affine))

/-- `_handle_mni_trans`: resolves the subject from the image filename,
locates the subject canonical volume (`orig.mgz`, then `T1.mgz`), reads
its voxel-to-physical affine, reloads the reference image, evaluates
`if not np.isclose(intended_affine, mri_ras_t)` — whose 4x4 elementwise
result has no Python truth value, see `ndarrayTruth` — and, were that
check to pass, would apply the (possibly inverted) talairach transform to
every point. -/
def handle_mni_trans (env : Env) (elec_coords : List Point3)
    (img_fpath : String) (subjects_dir : Option String) (revert_mni : Bool) :
    Except ConvError (List Point3) :=
  match env.subjectOf img_fpath with
  | none => .error .unresolvableSubject
  | some subject =>
    match subjects_dir with
    | none => .error .typeError
    | some sd =>
      if !(env.hasOrig sd subject || env.hasT1 sd subject) then
        .error .mriNotFound
      else
        let mri_ras_t := env.mriRasT sd subject
        match nbLoad env (some img_fpath) with
        | .error e => .error e
        | .ok img =>
          let intended_affine := img.affine
          match ndarrayTruth (npIsCloseMat intended_affine mri_ras_t) with
          | .error e => .error e
          | .ok isclose =>
            if !isclose then .error .frameMismatch
            else
              let mri_mni_t := env.mriMniT sd subject
              match
                (if revert_mni then npLinalgInv mri_mni_t
                 else .ok mri_mni_t) with
              | .error e => .error e
              | .ok affine => .ok (elec_coords.map (applyAffine affine))

/-! ## The two core converters -/

/-- `convert_coord_space`: converts a sensor point set between the
coordinate frames `mri`, `tkras` and `mni`, routing through the `mri`
frame (reverse phase on the current frame, then forward phase to the
target frame). -/
def convert_coord_space (env : Env) (subjects_dir : Option String)
    (sensors : Sensors) (to_coord : String) : Except ConvError Sensors :=
  if to_coord ∉ MAPPING_COORD_FRAMES then .error .invalidArgument
  else if sensors.coord_unit ∉ MAPPING_COORD_FRAMES then
    .error .invalidSensorFrame
  else if to_coord = sensors.coord_unit then .ok sensors
  else
    match sensors.intended_for with
    | none => .error .missingReferenceImage
    | some img_fpath =>
      match nbLoad env (some img_fpath) with
      | .error e => .error e
      | .ok img =>
        match (if sensors.coord_unit = "mni" then
                 handle_mni_trans env sensors.coords img_fpath subjects_dir
                   true
               else if sensors.coord_unit = "tkras" then
                 (handle_tkras_trans sensors.coords img true).map (·.2)
               else .ok sensors.coords) with
        | .error e => .error e
        | .ok coords1 =>
          match (if to_coord = "mni" then
                   handle_mni_trans env coords1 img_fpath subjects_dir false
                 else if to_coord = "tkras" then
                   (handle_tkras_trans
                     (if sensors.coord_unit ∈ (["mri", "mni"] : List String)
                      then coords1
                      else scaleCoordinates coords1 sensors.coord_unit "mm")
                     img false).map (·.2)
                 else .ok coords1) with
          | .error e => .error e
          | .ok coords2 =>
            .ok { sensors with coords := coords2, coord_unit := to_coord }

/-- The coordinate array produced by the affine step of
`convert_coord_units` (before optional rounding): to voxel space the
points are first rescaled to millimeters and then pushed through the
inverse intrinsic affine; to millimeter space they are pushed through the
intrinsic affine. -/
def unitsCoreCoords (sensors : Sensors) (to_coord : String) (img : NbImage) :
    List Point3 :=
  if to_coord = "mri" then
    (scaleCoordinates sensors.coords sensors.coord_unit "mm").map
      (applyAffine (inv4 img.affine))
  else if to_coord = "mm" then sensors.coords.map (applyAffine img.affine)
  else sensors.coords

/-- `convert_coord_units`: converts a sensor point set between voxel
(`"mri"`) and physical millimeter (`"mm"`) representations using the
intrinsic affine of the `intended_for` image, optionally rounding the
final coordinates to integers.  Note that the inverse affine is computed
eagerly, and that there is no guard for a missing `intended_for` path:
`None` flows into `nibabel.load`. -/
def convert_coord_units (env : Env) (sensors : Sensors) (to_coord : String)
    (round_ : Bool) : Except ConvError Sensors :=
  if to_coord ∉ (["mri", "mm"] : List String) then .error .invalidArgument
  else if to_coord = sensors.coord_unit then .ok sensors
  else
    match nbLoad env sensors.intended_for with
    | .error e => .error e
    | .ok img =>
      match npLinalgInv img.affine with
      | .error e => .error e
      | .ok inv_affine =>
        let coords1 :=
          if to_coord = "mri" then
            (scaleCoordinates sensors.coords sensors.coord_unit "mm").map
              (applyAffine inv_affine)
          else if to_coord = "mm" then
            sensors.coords.map (applyAffine img.affine)
          else sensors.coords
        let coords2 := if round_ then coords1.map roundPoint else coords1
        .ok { sensors with coords := coords2, coord_unit := to_coord }

/-! ## Support lemmas -/

/-- Rounding an integer value returns it unchanged. -/
theorem npRound_intCast (z : ℤ) : npRound (z : ℚ) = z := by
  norm_num [npRound, Int.floor_intCast]

/-- Every rounded point has integer coordinates. -/
theorem roundPoint_integral (p : Point3) : IsIntegralPoint (roundPoint p) :=
  ⟨⟨npRound p.1, rfl⟩, ⟨npRound p.2.1, rfl⟩, ⟨npRound p.2.2, rfl⟩⟩

/-- Rounding a point that already has integer coordinates is the identity. -/
theorem roundPoint_of_integral (p : Point3) (h : IsIntegralPoint p) :
    roundPoint p = p := by
  obtain ⟨x, y, z⟩ := p
  obtain ⟨⟨a, ha⟩, ⟨b, hb⟩, ⟨c, hc⟩⟩ := h
  simp only at ha hb hc
  simp [roundPoint, ha, hb, hc, npRound_intCast]

/-- Scaling by factor one is the identity on points. -/
theorem scalePoint_one : scalePoint 1 = id :=
  funext fun p => by obtain ⟨x, y, z⟩ := p; simp [scalePoint]

/-- Rescaling from millimeters to millimeters is the identity (scale
factor one). -/
theorem scaleCoordinates_mm_mm (c : List Point3) :
    scaleCoordinates c "mm" "mm" = c := by
  have h1 : unitScaleToMm "mm" / unitScaleToMm "mm" = 1 := by
    norm_num [unitScaleToMm]
  rw [scaleCoordinates, h1, scalePoint_one, List.map_id]

/-- The elementwise `np.isclose` result on 4x4 inputs never has a Python
truth value: its 16 element flattening always raises the ambiguous truth
value error. -/
theorem ndarrayTruth_npIsCloseMat (A B : Mat4) :
    ndarrayTruth (npIsCloseMat A B) = .error .ambiguousTruthValue := rfl

/-- The voxel-to-tkras matrix `_handle_tkras_trans` resolves: the header
matrix when available, else the hardcoded fallback. -/
def tkrasMatrixOf (img : NbImage) : Mat4 :=
  img.vox2ras_tkr.getD fallback_vox2ras_tkr

/-- Unfolding of `handle_tkras_trans` through `tkrasMatrixOf`. -/
theorem handle_tkras_trans_eq (c : List Point3) (img : NbImage) (rev : Bool) :
    handle_tkras_trans c img rev =
      match (if rev then npLinalgInv (tkrasMatrixOf img)
             else .ok (tkrasMatrixOf img)) with
      | .error e => .error e
      | .ok A => .ok (img.vox2ras_tkr.isNone, c.map (applyAffine A)) := by
  unfold handle_tkras_trans tkrasMatrixOf
  cases img.vox2ras_tkr <;> rfl

/-- `_handle_mni_trans` can never return successfully once the canonical
volume has been found: the truth value test on the 4x4 `np.isclose`
result raises before the talairach transform is even read. -/
theorem handle_mni_trans_never_ok (env : Env) (c : List Point3)
    (fp : String) (sd : Option String) (rev : Bool) (out : List Point3) :
    handle_mni_trans env c fp sd rev ≠ .ok out := by
  unfold handle_mni_trans
  intro h
  split at h
  · exact Except.noConfusion h
  · split at h
    · exact Except.noConfusion h
    · split at h
      · exact Except.noConfusion h
      · split at h
        · exact Except.noConfusion h
        · simp only [ndarrayTruth_npIsCloseMat] at h
          exact Except.noConfusion h

/-! ## Concrete fixtures -/

/-- An environment with no reachable files at all. -/
def envEmpty : Env :=
  ⟨fun _ => none, fun _ => none, fun _ _ => false, fun _ _ => false,
   fun _ _ => idMat4, fun _ _ => idMat4⟩

/-- An image with identity intrinsic affine whose header does not support
`get_vox2ras_tkr`. -/
def imgId : NbImage := ⟨idMat4, none⟩

/-- An environment in which every path loads `imgId`, every filename
resolves to subject `01`, the canonical volumes exist, and the subject
canonical affine equals the image affine (so the intended consistency
check would succeed). -/
def envMni : Env :=
  ⟨fun _ => some imgId, fun _ => some "01", fun _ _ => true, fun _ _ => true,
   fun _ _ => idMat4, fun _ _ => idMat4⟩

/-- A one sensor point set tagged with the `mni` frame. -/
def sensorsMni : Sensors := ⟨[(1, 2, 3)], "mni", some "sub-01_T1w.nii", ["A1"]⟩

/-- A one sensor point set tagged with the `mri` frame / voxel unit. -/
def sensorsMri : Sensors := ⟨[(1, 2, 3)], "mri", some "sub-01_T1w.nii", ["A1"]⟩

/-! ## Claims -/

/-- C1: the spec says the voxel-to-MNI resolver compares the reference
image affine against the subject canonical affine with an approximate
floating-point equality check, raising `FrameMismatch` exactly on
disagreement and proceeding on agreement.  The code instead evaluates
`not np.isclose(intended_affine, mri_ras_t)`: `np.isclose` is elementwise,
its 4x4 boolean result has no Python truth value, and the call raises
`ValueError` for every input that reaches the check — it never raises the
`FrameMismatch` `RuntimeError` and never proceeds, even when the two
affines are exactly equal (`np.allclose` was clearly intended).  This
theorem shows the resolver returns the ambiguous truth value error for
every environment in which the subject resolves and the canonical volume
exists. -/
theorem C1_mni_consistency_check_always_raises (env : Env)
    (coords : List Point3) (img_fpath sd subject : String) (img : NbImage)
    (revert_mni : Bool)
    (hsubj : env.subjectOf img_fpath = some subject)
    (hvol : (env.hasOrig sd subject || env.hasT1 sd subject) = true)
    (himg : env.images img_fpath = some img) :
    handle_mni_trans env coords img_fpath (some sd) revert_mni =
      .error .ambiguousTruthValue := by
  unfold handle_mni_trans
  rw [hsubj]
  simp [hvol, nbLoad, himg, ndarrayTruth_npIsCloseMat]

/-- Witness for C1 at a concrete input on which the reference image affine
and the subject canonical affine are exactly equal (both the identity), so
the claimed behaviour would have been to proceed: the resolver still
raises the ambiguous truth value error. -/
theorem C1_mni_consistency_check_always_raises_witness :
    handle_mni_trans envMni [(1, 2, 3)] "sub-01_T1w.nii" (some "subjects")
      false = .error .ambiguousTruthValue :=
  C1_mni_consistency_check_always_raises envMni [(1, 2, 3)] "sub-01_T1w.nii"
    "subjects" "01" imgId false rfl rfl rfl

/-- C4: converting to the current unit (for `convert_coord_units`) or the
current frame (for `convert_coord_space`) returns the very input record —
coordinates bit-identical, no affine applied, no image loaded, no error —
whenever the shared tag is a recognized value (which the data model of the
spec guarantees). -/
theorem C4_identity_short_circuit :
    (∀ (env : Env) (sd : Option String) (s : Sensors) (t : String),
        t ∈ MAPPING_COORD_FRAMES → t = s.coord_unit →
        convert_coord_space env sd s t = .ok s) ∧
    ∀ (env : Env) (s : Sensors) (t : String) (r : Bool),
        t ∈ (["mri", "mm"] : List String) → t = s.coord_unit →
        convert_coord_units env s t r = .ok s := by
  constructor
  · intro env sd s t ht heq
    unfold convert_coord_space
    rw [if_neg (not_not_intro ht), if_neg (not_not_intro (heq ▸ ht)),
      if_pos heq]
  · intro env s t r ht heq
    unfold convert_coord_units
    rw [if_neg (not_not_intro ht), if_pos heq]

/-- Witness for C4: identity conversions on a concrete point set, in an
environment in which no image exists at all (showing no image is needed
and no error raised). -/
theorem C4_identity_short_circuit_witness :
    convert_coord_space envEmpty none sensorsMri "mri" = .ok sensorsMri ∧
    convert_coord_units envEmpty sensorsMri "mri" true = .ok sensorsMri :=
  ⟨C4_identity_short_circuit.1 envEmpty none sensorsMri "mri" (by decide) rfl,
   C4_identity_short_circuit.2 envEmpty sensorsMri "mri" true (by decide) rfl⟩

/-- C5: an unrecognized conversion target is rejected with the invalid
argument `ValueError` immediately: the result is this error for every
environment (so no image is consulted), and being a pure function of its
input the call leaves the point set untouched. -/
theorem C5_unknown_target_rejected :
    (∀ (env : Env) (sd : Option String) (s : Sensors) (t : String),
        t ∉ MAPPING_COORD_FRAMES →
        convert_coord_space env sd s t = .error .invalidArgument) ∧
    ∀ (env : Env) (s : Sensors) (t : String) (r : Bool),
        t ∉ (["mri", "mm"] : List String) →
        convert_coord_units env s t r = .error .invalidArgument := by
  constructor
  · intro env sd s t ht
    unfold convert_coord_space
    rw [if_pos ht]
  · intro env s t r ht
    unfold convert_coord_units
    rw [if_pos ht]

/-- Witness for C5 at the concrete targets named by the spec: frame
`"foo"` and unit `"m"`. -/
theorem C5_unknown_target_rejected_witness :
    convert_coord_space envEmpty none sensorsMri "foo" =
        .error .invalidArgument ∧
    convert_coord_units envEmpty sensorsMri "m" true =
        .error .invalidArgument :=
  ⟨C5_unknown_target_rejected.1 envEmpty none sensorsMri "foo" (by decide),
   C5_unknown_target_rejected.2 envEmpty sensorsMri "m" true (by decide)⟩

/-- C7: when the image header does not support the `vox2ras_tkr` lookup,
the tkras resolver warns (first component `true`), uses the hardcoded
fallback matrix, and completes the conversion in both directions; under
the fallback matrix the voxel coordinate `(128, 128, 128)` maps to the
tkras coordinate `(0, 0, 0)`. -/
theorem C7_tkras_fallback (coords : List Point3) (img : NbImage)
    (h : img.vox2ras_tkr = none) :
    handle_tkras_trans coords img false =
        .ok (true, coords.map (applyAffine fallback_vox2ras_tkr)) ∧
    handle_tkras_trans coords img true =
        .ok (true, coords.map (applyAffine (inv4 fallback_vox2ras_tkr))) ∧
    applyAffine fallback_vox2ras_tkr (128, 128, 128) = (0, 0, 0) := by
  have hdet : det4 fallback_vox2ras_tkr ≠ 0 := by
    norm_num [det4, det3, fallback_vox2ras_tkr]
  refine ⟨?_, ?_, by norm_num [applyAffine, fallback_vox2ras_tkr]⟩
  · simp [handle_tkras_trans, h]
  · simp [handle_tkras_trans, h, npLinalgInv, hdet]

/-- Witness for C7: the fixture named by the spec — the warning fires, and
voxel `(128, 128, 128)` converts to tkras `(0, 0, 0)` via the fallback. -/
theorem C7_tkras_fallback_witness :
    handle_tkras_trans [(128, 128, 128)] imgId false =
      .ok (true, [((0 : ℚ), (0 : ℚ), (0 : ℚ))]) := by
  have h := C7_tkras_fallback [(128, 128, 128)] imgId rfl
  rw [h.1, List.map_cons, List.map_nil, h.2.2]

/-- Mapping the forward affine and then its inverse over a coordinate list
is the identity. -/
theorem map_applyAffine_inv4_cancel (A : Mat4) (hd : det4 A ≠ 0)
    (ha : IsAffineMat A) (l : List Point3) :
    (l.map (applyAffine A)).map (applyAffine (inv4 A)) = l := by
  induction l with
  | nil => rfl
  | cons p tl ih =>
    simp only [List.map_cons, applyAffine_inv4_applyAffine A hd ha p, ih]

/-- Rounding a list of integral points is the identity. -/
theorem map_roundPoint_integral (l : List Point3)
    (h : ∀ p ∈ l, IsIntegralPoint p) : l.map roundPoint = l := by
  induction l with
  | nil => rfl
  | cons p tl ih =>
    rw [List.map_cons, roundPoint_of_integral p (h p (by simp)),
      ih fun q hq => h q (by simp [hq])]

/-- A successful `handle_tkras_trans` always returns the input list mapped
through a single affine. -/
theorem handle_tkras_trans_ok (c : List Point3) (img : NbImage) (rev : Bool)
    (w : Bool) (out : List Point3)
    (h : handle_tkras_trans c img rev = .ok (w, out)) :
    ∃ M : Mat4, out = c.map (applyAffine M) := by
  rw [handle_tkras_trans_eq] at h
  split at h
  · exact Except.noConfusion h
  · rw [Except.ok.injEq] at h
    exact ⟨_, (congrArg Prod.snd h).symm⟩

/-- Unfolding of `convert_coord_space` on the path from the `mri` frame to
the `tkras` frame: a single forward application of the resolved
voxel-to-tkras matrix. -/
theorem convert_coord_space_mri_to_tkras (env : Env) (sd : Option String)
    (s : Sensors) (fp : String) (img : NbImage)
    (hu : s.coord_unit = "mri") (hf : s.intended_for = some fp)
    (hi : env.images fp = some img) :
    convert_coord_space env sd s "tkras" =
      .ok { s with coords := s.coords.map (applyAffine (tkrasMatrixOf img)),
                   coord_unit := "tkras" } := by
  unfold convert_coord_space
  rw [hf, hu]
  simp [nbLoad, hi, handle_tkras_trans_eq, MAPPING_COORD_FRAMES, Except.map]

/-- Unfolding of `convert_coord_space` on the path from the `tkras` frame
back to the `mri` frame: a single application of the inverted resolved
voxel-to-tkras matrix. -/
theorem convert_coord_space_tkras_to_mri (env : Env) (sd : Option String)
    (s : Sensors) (fp : String) (img : NbImage)
    (hu : s.coord_unit = "tkras") (hf : s.intended_for = some fp)
    (hi : env.images fp = some img)
    (hd : det4 (tkrasMatrixOf img) ≠ 0) :
    convert_coord_space env sd s "mri" =
      .ok { s with
              coords := s.coords.map (applyAffine (inv4 (tkrasMatrixOf img))),
              coord_unit := "mri" } := by
  unfold convert_coord_space
  rw [hf, hu]
  simp [nbLoad, hi, handle_tkras_trans_eq, npLinalgInv, hd,
    MAPPING_COORD_FRAMES, Except.map]

/-- Round trip between the `mri` and `tkras` frames: converting to `tkras`
and back recovers the original coordinates exactly (in exact arithmetic;
within floating-point tolerance on the machine), with the tag restored. -/
theorem roundTripSpace_mri_tkras (env : Env) (sd : Option String)
    (s : Sensors) (fp : String) (img : NbImage)
    (hu : s.coord_unit = "mri") (hf : s.intended_for = some fp)
    (hi : env.images fp = some img)
    (hd : det4 (tkrasMatrixOf img) ≠ 0)
    (ha : IsAffineMat (tkrasMatrixOf img)) :
    ∃ s' s'' : Sensors,
      convert_coord_space env sd s "tkras" = .ok s' ∧
      convert_coord_space env sd s' "mri" = .ok s'' ∧
      s''.coords = s.coords ∧ s''.coord_unit = s.coord_unit := by
  refine ⟨_, _, convert_coord_space_mri_to_tkras env sd s fp img hu hf hi,
    convert_coord_space_tkras_to_mri env sd _ fp img rfl hf hi hd, ?_, hu.symm⟩
  exact map_applyAffine_inv4_cancel (tkrasMatrixOf img) hd ha s.coords

/-- C2: the spec claims the frame round trip `to_frame(to_frame(P, f),
P.frame) ≈ P` for all frames in `{mri, tkras, mni}`.  For the `mni` frame
every conversion attempt — the first leg of any round trip into or out of
`mni` — dies with the ambiguous truth value `ValueError` of the broken
`np.isclose` consistency check (see C1) before any transform is applied,
so no round trip through `mni` can return coordinates; here both legs are
evaluated on a concrete, fully well-formed subject bundle whose affines
agree exactly.  (For the two working frames the round trip does hold:
`roundTripSpace_mri_tkras`.) -/
theorem C2_mni_round_trip_unreachable :
    convert_coord_space envMni (some "subjects") sensorsMni "mri" =
        .error .ambiguousTruthValue ∧
    convert_coord_space envMni (some "subjects") sensorsMri "mni" =
        .error .ambiguousTruthValue := by
  constructor <;> rfl

/-- C8: the spec claims `mni -> tkras` equals `mni -> mri` followed by
`mri -> tkras` (within tolerance).  Neither side can produce coordinates:
both the single call and the first call of the two call chain raise the
ambiguous truth value `ValueError` of the broken consistency check (see
C1) on a fully well-formed subject bundle. -/
theorem C8_mni_tkras_chain_unreachable :
    convert_coord_space envMni (some "subjects") sensorsMni "tkras" =
        .error .ambiguousTruthValue ∧
    convert_coord_space envMni (some "subjects") sensorsMni "mri" =
        .error .ambiguousTruthValue := by
  constructor <;> rfl

/-- Unfolding of `convert_coord_units` with rounding off, on any valid
non-identity target with a loadable image and invertible affine. -/
theorem convert_coord_units_eq_noround (env : Env) (s : Sensors) (t : String)
    (img : NbImage) (ht : t ∈ (["mri", "mm"] : List String))
    (hne : ¬ t = s.coord_unit)
    (hload : nbLoad env s.intended_for = .ok img)
    (hd : ¬ det4 img.affine = 0) :
    convert_coord_units env s t false =
      .ok { s with coords := unitsCoreCoords s t img, coord_unit := t } := by
  unfold convert_coord_units
  rw [if_neg (not_not_intro ht), if_neg hne, hload]
  simp only [npLinalgInv, eq_false hd, if_false]
  rfl

/-- Unfolding of `convert_coord_units` with rounding on, on any valid
non-identity target with a loadable image and invertible affine. -/
theorem convert_coord_units_eq_round (env : Env) (s : Sensors) (t : String)
    (img : NbImage) (ht : t ∈ (["mri", "mm"] : List String))
    (hne : ¬ t = s.coord_unit)
    (hload : nbLoad env s.intended_for = .ok img)
    (hd : ¬ det4 img.affine = 0) :
    convert_coord_units env s t true =
      .ok { s with coords := (unitsCoreCoords s t img).map roundPoint,
                   coord_unit := t } := by
  unfold convert_coord_units
  rw [if_neg (not_not_intro ht), if_neg hne, hload]
  simp only [npLinalgInv, eq_false hd, if_false]
  rfl

/-- The millimeter branch of `unitsCoreCoords` is the forward affine. -/
theorem unitsCoreCoords_mm (s : Sensors) (img : NbImage) :
    unitsCoreCoords s "mm" img = s.coords.map (applyAffine img.affine) := by
  simp [unitsCoreCoords]

/-- The voxel branch of `unitsCoreCoords` is the rescale to millimeters
followed by the inverse affine. -/
theorem unitsCoreCoords_mri (s : Sensors) (img : NbImage) :
    unitsCoreCoords s "mri" img =
      (scaleCoordinates s.coords s.coord_unit "mm").map
        (applyAffine (inv4 img.affine)) := by
  simp [unitsCoreCoords]

/-- C3 (amended): the unit round trip voxel to millimeter and back with
rounding off recovers the original coordinates exactly (hence within any
floating-point tolerance); and when the original voxel coordinates are
integers, rounding on the final millimeter-to-voxel leg still recovers
them exactly.  (As the counterexample shows, the claim as stated — with
rounding also on the voxel-to-millimeter leg — is false.) -/
theorem C3_unit_round_trip (env : Env) (s : Sensors) (fp : String)
    (img : NbImage) (hu : s.coord_unit = "mri")
    (hf : s.intended_for = some fp) (hi : env.images fp = some img)
    (hd : ¬ det4 img.affine = 0) (ha : IsAffineMat img.affine) :
    (∃ s' s'' : Sensors,
        convert_coord_units env s "mm" false = .ok s' ∧
        convert_coord_units env s' "mri" false = .ok s'' ∧
        s''.coords = s.coords) ∧
    ((∀ p ∈ s.coords, IsIntegralPoint p) →
      ∃ s' s'' : Sensors,
        convert_coord_units env s "mm" false = .ok s' ∧
        convert_coord_units env s' "mri" true = .ok s'' ∧
        s''.coords = s.coords) := by
  have hload : nbLoad env s.intended_for = .ok img := by
    rw [hf]; simp [nbLoad, hi]
  have hne1 : ¬ "mm" = s.coord_unit := by rw [hu]; decide
  have h1 := convert_coord_units_eq_noround env s "mm" img (by decide) hne1
    hload hd
  have hcancel :
      unitsCoreCoords
        ({ s with coords := unitsCoreCoords s "mm" img,
                  coord_unit := "mm" } : Sensors) "mri" img = s.coords := by
    simp only [unitsCoreCoords_mm]
    simp [unitsCoreCoords, scaleCoordinates_mm_mm,
      map_applyAffine_inv4_cancel img.affine hd ha]
  constructor
  · have h2a := convert_coord_units_eq_noround env
      { s with coords := unitsCoreCoords s "mm" img, coord_unit := "mm" }
      "mri" img (by decide) (by simp) hload hd
    exact ⟨_, _, h1, h2a, hcancel⟩
  · intro hint
    have h2b := convert_coord_units_eq_round env
      { s with coords := unitsCoreCoords s "mm" img, coord_unit := "mm" }
      "mri" img (by decide) (by simp) hload hd
    refine ⟨_, _, h1, h2b, ?_⟩
    show (unitsCoreCoords
      { s with coords := unitsCoreCoords s "mm" img, coord_unit := "mm" }
      "mri" img).map roundPoint = s.coords
    rw [hcancel]
    exact map_roundPoint_integral s.coords hint

/-- Witness for C3 at a concrete integral point set and the identity
intrinsic affine, exercising both the tolerance round trip and the
integral round trip with final rounding. -/
theorem C3_unit_round_trip_witness :
    (∃ s' s'' : Sensors,
        convert_coord_units envMni sensorsMri "mm" false = .ok s' ∧
        convert_coord_units envMni s' "mri" false = .ok s'' ∧
        s''.coords = sensorsMri.coords) ∧
    ∃ s' s'' : Sensors,
        convert_coord_units envMni sensorsMri "mm" false = .ok s' ∧
        convert_coord_units envMni s' "mri" true = .ok s'' ∧
        s''.coords = sensorsMri.coords := by
  have h := C3_unit_round_trip envMni sensorsMri "sub-01_T1w.nii" imgId rfl
    rfl rfl (by norm_num [det4, det3, imgId, idMat4]) ⟨rfl, rfl, rfl, rfl⟩
  refine ⟨h.1, h.2 ?_⟩
  intro p hp
  rw [show sensorsMri.coords = [((1 : ℚ), (2 : ℚ), (3 : ℚ))] from rfl,
    List.mem_singleton] at hp
  subst hp
  exact ⟨⟨1, by norm_num⟩, ⟨2, by norm_num⟩, ⟨3, by norm_num⟩⟩

/-- The intrinsic affine of the C3 counterexample: it scales the first
axis by two fifths, so millimeter values of integer voxels are not
integers and rounding them loses information. -/
def cexAffine : Mat4 :=
  ⟨2/5, 0, 0, 0, 0, 1, 0, 0, 0, 0, 1, 0, 0, 0, 0, 1⟩

/-- The counterexample image. -/
def cexImg : NbImage := ⟨cexAffine, none⟩

/-- The counterexample environment: every path loads `cexImg`. -/
def cexEnv : Env :=
  ⟨fun _ => some cexImg, fun _ => none, fun _ _ => false, fun _ _ => false,
   fun _ _ => idMat4, fun _ _ => idMat4⟩

/-- The counterexample point set: the integer voxel `(1, 0, 0)`. -/
def cexSensors : Sensors := ⟨[(1, 0, 0)], "mri", some "img.nii", ["A1"]⟩

/-- The voxel `(1, 0, 0)` after the rounded conversion to millimeters:
`2/5` rounds to `0`. -/
def cexSensorsMm : Sensors := ⟨[(0, 0, 0)], "mm", some "img.nii", ["A1"]⟩

/-- The point set after the rounded conversion back to voxels. -/
def cexSensorsBack : Sensors := ⟨[(0, 0, 0)], "mri", some "img.nii", ["A1"]⟩

/-- Counterexample for C3 as stated: with rounding enabled on both legs
(the `round=True` default), the voxel-to-millimeter-to-voxel round trip
maps the integer voxel `(1, 0, 0)` to `(0, 0, 0)`: rounding the
intermediate millimeter value `2/5` to `0` destroys the information the
inverse affine would need. -/
theorem C3_rounding_round_trip_cex :
    convert_coord_units cexEnv cexSensors "mm" true = .ok cexSensorsMm ∧
    convert_coord_units cexEnv cexSensorsMm "mri" true = .ok cexSensorsBack ∧
    cexSensorsBack.coords ≠ cexSensors.coords := by
  have hd : ¬ det4 cexImg.affine = 0 := by
    norm_num [det4, det3, cexImg, cexAffine]
  have h0 : npRound 0 = 0 := by simpa using npRound_intCast 0
  have hf1 : ⌊(2 : ℚ) / 5⌋ = 0 := by
    rw [Int.floor_eq_zero_iff, Set.mem_Ico]
    norm_num
  have h25 : npRound ((2 : ℚ) / 5) = 0 := by
    simp only [npRound, hf1]
    norm_num
  refine ⟨?_, ?_, ?_⟩
  · rw [convert_coord_units_eq_round cexEnv cexSensors "mm" cexImg
      (by decide) (by decide) rfl hd]
    have hc : (unitsCoreCoords cexSensors "mm" cexImg).map roundPoint =
        [((0 : ℚ), (0 : ℚ), (0 : ℚ))] := by
      rw [unitsCoreCoords_mm]
      simp only [cexSensors, cexImg, List.map_cons, List.map_nil]
      rw [show applyAffine cexAffine ((1 : ℚ), (0 : ℚ), (0 : ℚ)) =
          ((2 : ℚ) / 5, 0, 0) from by norm_num [applyAffine, cexAffine]]
      rw [show roundPoint ((2 : ℚ) / 5, 0, 0) = ((0 : ℚ), 0, 0) from by
        simp [roundPoint, h25, h0]]
    rw [hc]
    rfl
  · rw [convert_coord_units_eq_round cexEnv cexSensorsMm "mri" cexImg
      (by decide) (by decide) rfl hd]
    have hc : (unitsCoreCoords cexSensorsMm "mri" cexImg).map roundPoint =
        [((0 : ℚ), (0 : ℚ), (0 : ℚ))] := by
      rw [unitsCoreCoords_mri]
      simp only [cexSensorsMm, cexImg]
      rw [scaleCoordinates_mm_mm]
      simp only [List.map_cons, List.map_nil]
      rw [show applyAffine (inv4 cexAffine) ((0 : ℚ), (0 : ℚ), (0 : ℚ)) =
          ((0 : ℚ), 0, 0) from by
        norm_num [applyAffine, inv4, det4, det3, cexAffine]]
      rw [show roundPoint ((0 : ℚ), (0 : ℚ), (0 : ℚ)) = ((0 : ℚ), 0, 0)
        from by simp [roundPoint, h0]]
    rw [hc]
    rfl
  · intro h
    have h1 : cexSensorsBack.coords = cexSensors.coords := h
    rw [show cexSensorsBack.coords = [((0 : ℚ), (0 : ℚ), (0 : ℚ))] from rfl,
      show cexSensors.coords = [((1 : ℚ), (0 : ℚ), (0 : ℚ))] from rfl] at h1
    injection h1 with h2 h3
    injection h2 with h4 h5
    exact absurd h4 (by norm_num)

/-- C6: the spec says `convert_coord_units` fails with the dedicated
missing reference image error when `intended_for` is unset.  The code has
no such guard (unlike `convert_coord_space`): `None` flows straight into
`nibabel.load`, which raises its own `TypeError` — the call does fail, but
with the loader error, not the dedicated error the sibling function
raises. -/
theorem C6_missing_image_loader_error (env : Env) (s : Sensors) (t : String)
    (r : Bool) (hnone : s.intended_for = none)
    (ht : t ∈ (["mri", "mm"] : List String)) (hne : ¬ t = s.coord_unit) :
    convert_coord_units env s t r = .error .loadNonePath ∧
    ConvError.loadNonePath ≠ ConvError.missingReferenceImage := by
  refine ⟨?_, by decide⟩
  unfold convert_coord_units
  rw [if_neg (not_not_intro ht), if_neg hne, hnone]
  rfl

/-- The point set with no associated reference image path. -/
def sensorsNoImg : Sensors := ⟨[(1, 2, 3)], "mri", none, ["A1"]⟩

/-- Witness for C6: a concrete unit conversion with `intended_for` unset
fails with the loader `TypeError`, not the dedicated error. -/
theorem C6_missing_image_loader_error_witness :
    convert_coord_units envEmpty sensorsNoImg "mm" true =
        .error .loadNonePath ∧
    ConvError.loadNonePath ≠ ConvError.missingReferenceImage :=
  C6_missing_image_loader_error envEmpty sensorsNoImg "mm" true rfl
    (by decide) (by decide)

/-- Extracting the underlying success value from the `Except.map (·.2)`
projection used for the tkras resolver result. -/
theorem except_map_snd_ok {α : Type} (e : Except ConvError (Bool × α))
    (c : α) (h : e.map (·.2) = .ok c) : ∃ w, e = .ok (w, c) := by
  cases e with
  | error err => simp [Except.map] at h
  | ok p =>
    obtain ⟨w, out⟩ := p
    simp only [Except.map, Except.ok.injEq] at h
    exact ⟨w, by rw [h]⟩

/-- The coordinate expression computed by `convert_coord_units` is always
a single `List.map` over the input coordinates. -/
theorem units_coords_is_map (s : Sensors) (t : String) (A B : Mat4)
    (r : Bool) :
    ∃ f : Point3 → Point3,
      (if r then
        (if t = "mri" then
          (scaleCoordinates s.coords s.coord_unit "mm").map (applyAffine A)
         else if t = "mm" then s.coords.map (applyAffine B)
         else s.coords).map roundPoint
       else
        (if t = "mri" then
          (scaleCoordinates s.coords s.coord_unit "mm").map (applyAffine A)
         else if t = "mm" then s.coords.map (applyAffine B)
         else s.coords)) = s.coords.map f := by
  have hg : ∃ g : Point3 → Point3,
      (if t = "mri" then
        (scaleCoordinates s.coords s.coord_unit "mm").map (applyAffine A)
       else if t = "mm" then s.coords.map (applyAffine B)
       else s.coords) = s.coords.map g := by
    by_cases h1 : t = "mri"
    · exact ⟨applyAffine A ∘
        scalePoint (unitScaleToMm s.coord_unit / unitScaleToMm "mm"),
        by simp [h1, scaleCoordinates, List.map_map]⟩
    · by_cases h2 : t = "mm"
      · exact ⟨applyAffine B, by simp [h1, h2]⟩
      · exact ⟨id, by simp [h1, h2]⟩
  obtain ⟨g, hg⟩ := hg
  cases r with
  | true => exact ⟨roundPoint ∘ g, by simp [hg, List.map_map]⟩
  | false => exact ⟨g, by simp [hg]⟩

/-- C9: every successful conversion returns a record that agrees with the
input on every field other than the coordinates and the coordinate tag
(same reference image path, same auxiliary names), carries the requested
tag, has the same number of points, and whose coordinate list is the input
list mapped pointwise (so order is preserved and nothing is reordered,
dropped, or deduplicated).  The embedding is purely functional, so the
input record itself is never modified. -/
theorem C9_output_structure :
    (∀ (env : Env) (sd : Option String) (s : Sensors) (t : String)
        (s' : Sensors), convert_coord_space env sd s t = .ok s' →
        s'.intended_for = s.intended_for ∧ s'.names = s.names ∧
        s'.coord_unit = t ∧ s'.coords.length = s.coords.length ∧
        ∃ f : Point3 → Point3, s'.coords = s.coords.map f) ∧
    ∀ (env : Env) (s : Sensors) (t : String) (r : Bool) (s' : Sensors),
        convert_coord_units env s t r = .ok s' →
        s'.intended_for = s.intended_for ∧ s'.names = s.names ∧
        s'.coord_unit = t ∧ s'.coords.length = s.coords.length ∧
        ∃ f : Point3 → Point3, s'.coords = s.coords.map f := by
  constructor
  · intro env sd s t s' h
    unfold convert_coord_space at h
    split at h
    · exact Except.noConfusion h
    split at h
    · exact Except.noConfusion h
    split at h
    · rename_i hteq
      rw [Except.ok.injEq] at h
      subst h
      exact ⟨rfl, rfl, hteq.symm, rfl, ⟨id, (List.map_id _).symm⟩⟩
    · split at h
      · exact Except.noConfusion h
      split at h
      · exact Except.noConfusion h
      split at h
      · exact Except.noConfusion h
      rename_i img hload coords1 heq1
      split at h
      · exact Except.noConfusion h
      rename_i coords2 heq2
      rw [Except.ok.injEq] at h
      subst h
      have hf1 : ∃ f1 : Point3 → Point3, coords1 = s.coords.map f1 := by
        split at heq1
        · exact absurd heq1 (handle_mni_trans_never_ok _ _ _ _ _ _)
        split at heq1
        · obtain ⟨w, hw⟩ := except_map_snd_ok _ _ heq1
          obtain ⟨M, hM⟩ := handle_tkras_trans_ok _ _ _ _ _ hw
          exact ⟨applyAffine M, hM⟩
        · rw [Except.ok.injEq] at heq1
          exact ⟨id, by rw [← heq1, List.map_id]⟩
      have hf2 : ∃ f2 : Point3 → Point3, coords2 = coords1.map f2 := by
        split at heq2
        · exact absurd heq2 (handle_mni_trans_never_ok _ _ _ _ _ _)
        split at heq2
        · obtain ⟨w, hw⟩ := except_map_snd_ok _ _ heq2
          obtain ⟨M, hM⟩ := handle_tkras_trans_ok _ _ _ _ _ hw
          rw [hM]
          split
          · exact ⟨applyAffine M, rfl⟩
          · exact ⟨applyAffine M ∘
              scalePoint (unitScaleToMm s.coord_unit / unitScaleToMm "mm"),
              by rw [scaleCoordinates, List.map_map]⟩
        · rw [Except.ok.injEq] at heq2
          exact ⟨id, by rw [← heq2, List.map_id]⟩
      obtain ⟨f1, hf1⟩ := hf1
      obtain ⟨f2, hf2⟩ := hf2
      refine ⟨rfl, rfl, rfl, ?_, ⟨f2 ∘ f1, ?_⟩⟩
      · show coords2.length = s.coords.length
        rw [hf2, hf1, List.length_map, List.length_map]
      · show coords2 = s.coords.map (f2 ∘ f1)
        rw [hf2, hf1, List.map_map]
  · intro env s t r s' h
    unfold convert_coord_units at h
    split at h
    · exact Except.noConfusion h
    split at h
    · rename_i hteq
      rw [Except.ok.injEq] at h
      subst h
      exact ⟨rfl, rfl, hteq.symm, rfl, ⟨id, (List.map_id _).symm⟩⟩
    · split at h
      · exact Except.noConfusion h
      rename_i x1 img hload
      split at h
      · exact Except.noConfusion h
      rename_i x2 inv_affine hinv
      simp only [Except.ok.injEq] at h
      subst h
      obtain ⟨f, hf⟩ := units_coords_is_map s t inv_affine img.affine r
      refine ⟨rfl, rfl, rfl, ?_, ⟨f, hf⟩⟩
      rw [hf, List.length_map]

/-- Witness for C9 on a concrete successful conversion (voxel `mri` frame
to `tkras` via the fallback matrix). -/
theorem C9_output_structure_witness :
    (({ sensorsMri with
          coords := sensorsMri.coords.map (applyAffine (tkrasMatrixOf imgId)),
          coord_unit := "tkras" } : Sensors).intended_for =
        sensorsMri.intended_for ∧
      ({ sensorsMri with
          coords := sensorsMri.coords.map (applyAffine (tkrasMatrixOf imgId)),
          coord_unit := "tkras" } : Sensors).names = sensorsMri.names ∧
      ({ sensorsMri with
          coords := sensorsMri.coords.map (applyAffine (tkrasMatrixOf imgId)),
          coord_unit := "tkras" } : Sensors).coord_unit = "tkras" ∧
      ({ sensorsMri with
          coords := sensorsMri.coords.map (applyAffine (tkrasMatrixOf imgId)),
          coord_unit := "tkras" } : Sensors).coords.length =
        sensorsMri.coords.length ∧
      ∃ f : Point3 → Point3,
        ({ sensorsMri with
            coords :=
              sensorsMri.coords.map (applyAffine (tkrasMatrixOf imgId)),
            coord_unit := "tkras" } : Sensors).coords =
          sensorsMri.coords.map f) :=
  C9_output_structure.1 envMni (some "subjects") sensorsMri "tkras" _
    (convert_coord_space_mri_to_tkras envMni (some "subjects") sensorsMri
      "sub-01_T1w.nii" imgId rfl rfl rfl)

/-- C10: whenever rounding is requested (the default) and the target unit
differs from the current one, the final coordinates are exactly the
affine-step output rounded half-to-even and cast to integers — for both
recognized targets, including `"mm"`, so a default conversion to
millimeters returns integer coordinates. -/
theorem C10_round_applied_for_all_targets (env : Env) (s : Sensors)
    (t : String) (img : NbImage) (ht : t ∈ (["mri", "mm"] : List String))
    (hne : ¬ t = s.coord_unit)
    (hload : nbLoad env s.intended_for = .ok img)
    (hd : ¬ det4 img.affine = 0) :
    convert_coord_units env s t true =
      .ok { s with coords := (unitsCoreCoords s t img).map roundPoint,
                   coord_unit := t } ∧
    ∀ p ∈ (unitsCoreCoords s t img).map roundPoint, IsIntegralPoint p := by
  refine ⟨convert_coord_units_eq_round env s t img ht hne hload hd, ?_⟩
  intro p hp
  rw [List.mem_map] at hp
  obtain ⟨q, _, rfl⟩ := hp
  exact roundPoint_integral q

/-- Witness for C10: a concrete default (rounded) conversion of voxel
coordinates to millimeters. -/
theorem C10_round_applied_for_all_targets_witness :
    convert_coord_units envMni sensorsMri "mm" true =
      .ok { sensorsMri with
              coords := (unitsCoreCoords sensorsMri "mm" imgId).map roundPoint,
              coord_unit := "mm" } ∧
    ∀ p ∈ (unitsCoreCoords sensorsMri "mm" imgId).map roundPoint,
      IsIntegralPoint p :=
  C10_round_applied_for_all_targets envMni sensorsMri "mm" imgId (by decide)
    (by decide) rfl (by norm_num [det4, det3, imgId, idMat4])
